import Mathlib

/-!
Verification development for the in-memory audio editing engine of
`src/utils/audioUtils.ts` (region cut/extract, concatenation, channel paste,
multi-track mixing, and 16-bit PCM conversion for WAV export).

Audio buffers are modelled with exact rationals in place of IEEE floats:
every concrete value appearing in the statements below (0.5, 0.8, 0.25,
1/10000, gain constants) is exactly representable in binary floating point,
so the rational model agrees with the JavaScript evaluation on them.
`Float32Array.set`, `subarray` and `fill` are modelled by the list
operation `setAt` and by `take`/`drop`/`replicate` combinations.
`Math.floor` on a rational is `Rat.floor`; storing into an `Int16Array`
truncates toward zero and wraps modulo 2^16 (`ratTrunc`, `toInt16Wrap`).
The pan-gain computation of `applyAudioEffects` uses real `cos`/`sin` and is
modelled over `ℝ`.
-/

/-- Channel selection mode, from `types.ts` (`'stereo' | 'left' | 'right'`). -/
inductive ChannelMode where
  | stereo : ChannelMode
  | left : ChannelMode
  | right : ChannelMode
deriving DecidableEq, Repr

/-- Model of a Web Audio `AudioBuffer`: a sample rate, a frame count, and one
sample list per channel. -/
structure AudioBuffer where
  sampleRate : ℕ
  length : ℕ
  channels : List (List ℚ)
deriving DecidableEq, Repr

/-- The well-formedness every real `AudioBuffer` enjoys: at least one channel,
and every channel holds exactly `length` samples. -/
def Valid (b : AudioBuffer) : Prop :=
  0 < b.channels.length ∧ ∀ c ∈ b.channels, c.length = b.length

instance (b : AudioBuffer) : Decidable (Valid b) := by
  unfold Valid; infer_instance

/-- `audioContext.createBuffer(numCh, len, rate)`: zero-filled buffer. -/
def createBuffer (numCh len rate : ℕ) : AudioBuffer :=
  { sampleRate := rate, length := len,
    channels := List.replicate numCh (List.replicate len 0) }

/-- `buffer.numberOfChannels`. -/
def AudioBuffer.numberOfChannels (b : AudioBuffer) : ℕ := b.channels.length

/-- `buffer.getChannelData(i)` (in-range in every use below). -/
def AudioBuffer.getChannelData (b : AudioBuffer) (i : ℕ) : List ℚ :=
  b.channels.getD i []

/-- `dst.set(src, off)` on typed arrays: overwrite `dst` with `src` starting at
`off`.  All uses below keep `off + src.length ≤ dst.length`. -/
def setAt (dst src : List ℚ) (off : ℕ) : List ℚ :=
  dst.take off ++ src ++ dst.drop (off + src.length)

/-- `arr.subarray(a, b)` (indices already clamped at every use site). -/
def subarray (c : List ℚ) (a b : ℕ) : List ℚ := (c.drop a).take (b - a)

/-- `Math.max(0, Math.min(Math.floor(t * rate), totalFrames))`: the frame
clamping used by `cutAudioRegion`, `extractAudioRegion` and
`applyAudioEffects`. -/
def clampFrame (t : ℚ) (rate totalFrames : ℕ) : ℕ :=
  (max 0 (min (Rat.floor (t * (rate : ℚ))) (totalFrames : ℤ))).toNat

/-- Truncation toward zero, the behaviour of a JavaScript `Int16Array` store
(`ToInt16`) before wrapping. -/
def ratTrunc (q : ℚ) : ℤ :=
  if q < 0 then -(Rat.floor (-q)) else Rat.floor q

/-- Wrap an integer to the signed 16-bit range, completing `ToInt16`. -/
def toInt16Wrap (x : ℤ) : ℤ := (x + 32768) % 65536 - 32768

/-- One sample of `bufferToWave`: `s = Math.max(-1, Math.min(1, x))` then
`s < 0 ? s * 0x8000 : s * 0x7FFF` stored into the `Int16Array`. -/
def pcm16OfSample (x : ℚ) : ℤ :=
  let s := max (-1) (min 1 x)
  toInt16Wrap (ratTrunc (if s < 0 then s * 32768 else s * 32767))

/-- The `data`-chunk contents written by `bufferToWave`, as 16-bit values in
file order: the nested loop `for i < len, for ch < numOfChan` interleaves
channel-major within each frame.  (Each value is then laid down as two
little-endian bytes by the platform `Int16Array`; byte order is below the
granularity of this model.) -/
def wavDataSamples (b : AudioBuffer) (len : ℕ) : List ℤ :=
  (List.range len).flatMap (fun i =>
    (List.range b.numberOfChannels).map (fun ch =>
      pcm16OfSample ((b.getChannelData ch).getD i 0)))

/-- The float-to-int16 conversion as the specification words it:
`s < 0 ? round(s * 32768) : round(s * 32767)` after clamping, with
`Math.round x = floor (x + 1/2)`. -/
def specRoundWavSample (x : ℚ) : ℤ :=
  let s := max (-1) (min 1 x)
  if s < 0 then Rat.floor (s * 32768 + 1/2) else Rat.floor (s * 32767 + 1/2)

/-- The float-to-int16 conversion with rounding replaced by truncation toward
zero (the behaviour of the `Int16Array` store in the source). -/
def specTruncWavSample (x : ℚ) : ℤ :=
  let s := max (-1) (min 1 x)
  if s < 0 then -(Rat.floor (-(s * 32768))) else Rat.floor (s * 32767)

/-- `ensureStereo`: a buffer with ≥ 2 channels is returned unchanged; a mono
buffer is promoted by writing channel 0 into both channels of a fresh
2-channel buffer. -/
def ensureStereo (b : AudioBuffer) : AudioBuffer :=
  if 2 ≤ b.numberOfChannels then b
  else
    { sampleRate := b.sampleRate, length := b.length,
      channels := [setAt (List.replicate b.length 0) (b.getChannelData 0) 0,
                   setAt (List.replicate b.length 0) (b.getChannelData 0) 0] }

/-- Working buffer of `cutAudioRegion`: promote to stereo only when editing a
specific channel of a mono source. -/
def cutWorkingBuffer (b : AudioBuffer) (mode : ChannelMode) : AudioBuffer :=
  if mode ≠ ChannelMode.stereo ∧ b.numberOfChannels = 1 then ensureStereo b else b

/-- One output channel of the stereo branch of `cutAudioRegion`: a zero
channel of the new length, the pre-cut part written at 0 when `startFrame > 0`,
the post-cut part written at `startFrame` when `endFrame < totalFrames`. -/
def cutStereoChannel (orig : List ℚ) (newLength startFrame endFrame totalFrames : ℕ) :
    List ℚ :=
  let c := List.replicate newLength (0 : ℚ)
  let c := if 0 < startFrame then setAt c (orig.take startFrame) 0 else c
  if endFrame < totalFrames then setAt c (orig.drop endFrame) startFrame else c

/-- `newChannel.subarray(startFrame, endFrame).fill(0)` after the original
channel has been copied in whole. -/
def fillRegionZero (c : List ℚ) (startFrame endFrame : ℕ) : List ℚ :=
  c.take startFrame ++ List.replicate (endFrame - startFrame) 0 ++ c.drop endFrame

/-- `cutAudioRegion(originalBuffer, start, end, mode)`. -/
def cutAudioRegion (b : AudioBuffer) (start endSec : ℚ) (mode : ChannelMode) :
    AudioBuffer :=
  let workingBuffer := cutWorkingBuffer b mode
  let rate := workingBuffer.sampleRate
  let totalFrames := workingBuffer.length
  let startFrame := clampFrame start rate totalFrames
  let endFrame := clampFrame endSec rate totalFrames
  if mode = ChannelMode.stereo then
    let removedFrames : ℤ := (endFrame : ℤ) - (startFrame : ℤ)
    let newLength := (max 0 ((totalFrames : ℤ) - removedFrames)).toNat
    if newLength = 0 then createBuffer workingBuffer.numberOfChannels 1 rate
    else
      { sampleRate := rate, length := newLength,
        channels := (List.range workingBuffer.numberOfChannels).map (fun i =>
          cutStereoChannel (workingBuffer.getChannelData i)
            newLength startFrame endFrame totalFrames) }
  else
    { sampleRate := rate, length := totalFrames,
      channels := (List.range workingBuffer.numberOfChannels).map (fun i =>
        let c := setAt (List.replicate totalFrames (0 : ℚ))
          (workingBuffer.getChannelData i) 0
        if ((mode = ChannelMode.left ∧ i = 0) ∨ (mode = ChannelMode.right ∧ i = 1))
            ∧ startFrame < endFrame then
          fillRegionZero c startFrame endFrame
        else c) }

/-- Working buffer of `extractAudioRegion`: mono is treated as dual mono when
a single channel is requested. -/
def extractWorkingBuffer (b : AudioBuffer) (mode : ChannelMode) : AudioBuffer :=
  if b.numberOfChannels = 1 ∧ (mode = ChannelMode.left ∨ mode = ChannelMode.right)
  then ensureStereo b else b

/-- `extractAudioRegion(originalBuffer, start, end, mode)`. -/
def extractAudioRegion (b : AudioBuffer) (start endSec : ℚ) (mode : ChannelMode) :
    AudioBuffer :=
  let workingBuffer := extractWorkingBuffer b mode
  let rate := workingBuffer.sampleRate
  let totalFrames := workingBuffer.length
  let startFrame := clampFrame start rate totalFrames
  let endFrame := clampFrame endSec rate totalFrames
  let newLength := endFrame - startFrame
  if newLength = 0 then createBuffer 1 1 rate
  else if mode = ChannelMode.stereo then
      { sampleRate := rate, length := newLength,
        channels := (List.range workingBuffer.numberOfChannels).map (fun i =>
          setAt (List.replicate newLength 0)
            (subarray (workingBuffer.getChannelData i) startFrame endFrame) 0) }
  else
      let sourceChannelIndex := if mode = ChannelMode.left then 0 else 1
      { sampleRate := rate, length := newLength,
        channels := [if sourceChannelIndex < workingBuffer.numberOfChannels then
            setAt (List.replicate newLength 0)
              (subarray (workingBuffer.getChannelData sourceChannelIndex)
                startFrame endFrame) 0
          else List.replicate newLength 0] }

/-- `concatenateAudioBuffers(buffer1, buffer2)`. -/
def concatenateAudioBuffers (b1 b2 : AudioBuffer) : AudioBuffer :=
  let numberOfChannels := max b1.numberOfChannels b2.numberOfChannels
  let totalLength := b1.length + b2.length
  { sampleRate := b1.sampleRate, length := totalLength,
    channels := (List.range numberOfChannels).map (fun i =>
      let c := List.replicate totalLength (0 : ℚ)
      let c := if i < b1.numberOfChannels then setAt c (b1.getChannelData i) 0
        else if b1.numberOfChannels = 1 ∧ i = 1 then setAt c (b1.getChannelData 0) 0
        else c
      if i < b2.numberOfChannels then setAt c (b2.getChannelData i) b1.length
      else if b2.numberOfChannels = 1 ∧ i = 1 then
        setAt c (b2.getChannelData 0) b1.length
      else c) }

/-- Working buffer of `pasteAudioToChannel`: always at least stereo. -/
def pasteWorkingBuffer (target : AudioBuffer) : AudioBuffer :=
  if target.numberOfChannels = 1 then ensureStereo target else target

/-- `Math.max(0, Math.floor(insertionTime * rate))`, the paste start frame
(clamped to 0 on the left only; the buffer may grow on the right). -/
def pasteStartFrame (insertionTime : ℚ) (rate : ℕ) : ℕ :=
  (max 0 (Rat.floor (insertionTime * (rate : ℚ)))).toNat

/-- `pasteAudioToChannel(targetBuffer, pasteBuffer, insertionTime, mode)`:
overwrite one channel in place, growing the buffer only when the paste
overruns the end. -/
def pasteAudioToChannel (target paste : AudioBuffer) (insertionTime : ℚ)
    (mode : ChannelMode) : AudioBuffer :=
  let workingBuffer := pasteWorkingBuffer target
  let rate := workingBuffer.sampleRate
  let startFrame := pasteStartFrame insertionTime rate
  let endFrame := startFrame + paste.length
  let newTotalLength := max workingBuffer.length endFrame
  let base := workingBuffer.channels.map (fun c =>
    setAt (List.replicate newTotalLength 0) c 0)
  let targetChIndex := if mode = ChannelMode.left then 0 else 1
  let channels := if targetChIndex < base.length then
      base.set targetChIndex
        (setAt (base.getD targetChIndex []) (paste.getChannelData 0) startFrame)
    else base
  { sampleRate := rate, length := newTotalLength, channels := channels }

/-- One entry of the track list consumed by `mixAllTracks`. -/
structure Track where
  buffer : AudioBuffer
  isMuted : Bool
deriving DecidableEq, Repr

/-- Maximum length among the non-muted tracks. -/
def mixMaxLength (tracks : List Track) : ℕ :=
  tracks.foldl (fun m t =>
    if t.isMuted = false ∧ m < t.buffer.length then t.buffer.length else m) 0

/-- `for i < len: out[i] += inp[i]` on an accumulator of fixed length. -/
def addTrackInto (out inp : List ℚ) (len : ℕ) : List ℚ :=
  (List.range out.length).map (fun i =>
    if i < len then out.getD i 0 + inp.getD i 0 else out.getD i 0)

/-- The right input channel of a track: channel 1 when present, else mono
channel 0 duplicated. -/
def trackRightChannel (b : AudioBuffer) : List ℚ :=
  if 1 < b.numberOfChannels then b.getChannelData 1 else b.getChannelData 0

/-- Summation loop of `mixAllTracks` over the stereo accumulator. -/
def mixSums (tracks : List Track) (maxLength : ℕ) : List ℚ × List ℚ :=
  tracks.foldl (fun acc t =>
    if t.isMuted = true then acc
    else (addTrackInto acc.1 (t.buffer.getChannelData 0) t.buffer.length,
          addTrackInto acc.2 (trackRightChannel t.buffer) t.buffer.length))
    (List.replicate maxLength 0, List.replicate maxLength 0)

/-- The hard-clip limiter applied to one accumulated sample. -/
def clampSample1 (x : ℚ) : ℚ := if 1 < x then 1 else if x < -1 then -1 else x

/-- Both accumulator channels after summation and limiting. -/
def mixClamped (tracks : List Track) : List ℚ × List ℚ :=
  let s := mixSums tracks (mixMaxLength tracks)
  (s.1.map clampSample1, s.2.map clampSample1)

/-- The silence-detection scan: the last frame index at which either clamped
channel exceeds the 0.0001 threshold in absolute value (0 when none does). -/
def lastNonZeroFrame (left right : List ℚ) (maxLength : ℕ) : ℕ :=
  (List.range maxLength).foldl (fun last i =>
    if 1/10000 < |left.getD i 0| ∨ 1/10000 < |right.getD i 0| then i else last) 0

/-- The `lastNonZeroFrame` value computed inside `mixAllTracks`. -/
def mixLastFrame (tracks : List Track) : ℕ :=
  lastNonZeroFrame (mixClamped tracks).1 (mixClamped tracks).2 (mixMaxLength tracks)

/-- `mixAllTracks(tracks, audioContext)`; `ctxRate` is
`audioContext.sampleRate`, and `floor(rate * 0.5)` is `rate / 2`. -/
def mixAllTracks (tracks : List Track) (ctxRate : ℕ) : AudioBuffer :=
  let maxLength := mixMaxLength tracks
  if maxLength = 0 then createBuffer 2 1 ctxRate
  else
    let c := mixClamped tracks
    let trimEnd := min maxLength (mixLastFrame tracks + ctxRate / 2)
    if trimEnd = 0 then createBuffer 2 1 ctxRate
    else
      { sampleRate := ctxRate, length := trimEnd,
        channels := [setAt (List.replicate trimEnd 0) (c.1.take trimEnd) 0,
                     setAt (List.replicate trimEnd 0) (c.2.take trimEnd) 0] }

/-- Gain computation of `applyAudioEffects` (constant-power pan):
`normalizedPan = (pan + 1) / 2`, `angle = normalizedPan * π/2`,
result `(Math.cos angle, Math.sin angle)`. -/
noncomputable def applyEffectsGains (pan : ℝ) : ℝ × ℝ :=
  let normalizedPan := (pan + 1) / 2
  let angle := normalizedPan * (Real.pi / 2)
  (Real.cos angle, Real.sin angle)

/-! General lemmas about `getD`, `setAt`, `fillRegionZero` and buffers. -/

lemma getD_of_ge {α : Type} (l : List α) (i : ℕ) (d : α) (h : l.length ≤ i) :
    l.getD i d = d := by
  simp [List.getD_eq_getElem?_getD, List.getElem?_eq_none h]

lemma getD_append_left {α : Type} (l l' : List α) (i : ℕ) (d : α)
    (h : i < l.length) : (l ++ l').getD i d = l.getD i d := by
  simp [List.getD_eq_getElem?_getD, List.getElem?_append, h]

lemma getD_append_right {α : Type} (l l' : List α) (i : ℕ) (d : α)
    (h : l.length ≤ i) : (l ++ l').getD i d = l'.getD (i - l.length) d := by
  simp [List.getD_eq_getElem?_getD, List.getElem?_append, Nat.not_lt.mpr h]

lemma getD_take {α : Type} (l : List α) (n i : ℕ) (d : α) (h : i < n) :
    (l.take n).getD i d = l.getD i d := by
  simp [List.getD_eq_getElem?_getD, List.getElem?_take_of_lt h]

lemma getD_drop {α : Type} (l : List α) (n i : ℕ) (d : α) :
    (l.drop n).getD i d = l.getD (n + i) d := by
  simp [List.getD_eq_getElem?_getD, List.getElem?_drop]

lemma getD_replicate {α : Type} (n : ℕ) (a : α) (i : ℕ) (d : α) (h : i < n) :
    (List.replicate n a).getD i d = a := by
  simp [List.getD_eq_getElem?_getD, List.getElem?_replicate, h]

lemma getD_map {α β : Type} (l : List α) (f : α → β) (i : ℕ) (d : β) (d' : α)
    (h : i < l.length) : (l.map f).getD i d = f (l.getD i d') := by
  simp [List.getD_eq_getElem?_getD, List.getElem?_map, List.getElem?_eq_getElem h]

lemma getD_range (n i d : ℕ) (h : i < n) : (List.range n).getD i d = i := by
  simp [List.getD_eq_getElem?_getD, List.getElem?_range, h]

lemma getD_set_ne {α : Type} (l : List α) (i j : ℕ) (x : α) (d : α) (h : i ≠ j) :
    (l.set i x).getD j d = l.getD j d := by
  simp [List.getD_eq_getElem?_getD, List.getElem?_set_ne h]

lemma getD_set_self {α : Type} (l : List α) (i : ℕ) (x : α) (d : α)
    (h : i < l.length) : (l.set i x).getD i d = x := by
  simp [List.getD_eq_getElem?_getD, List.getElem?_set_self, h]

lemma range_map_getD {α β : Type} (l : List α) (f : α → β) (d : α) :
    (List.range l.length).map (fun i => f (l.getD i d)) = l.map f := by
  induction l with
  | nil => simp
  | cons a t ih =>
    rw [List.length_cons, List.range_succ_eq_map, List.map_cons, List.map_map]
    have h : ∀ i ∈ List.range t.length,
        ((fun i => f ((a :: t).getD i d)) ∘ Nat.succ) i = f (t.getD i d) := by
      intro i _
      simp [List.getD_cons_succ]
    rw [List.map_congr_left h, ih]
    simp [List.getD_cons_zero]

lemma setAt_length (dst src : List ℚ) (off : ℕ)
    (h : off + src.length ≤ dst.length) :
    (setAt dst src off).length = dst.length := by
  simp only [setAt, List.length_append, List.length_take, List.length_drop]
  omega

lemma setAt_zero_pad (n : ℕ) (src : List ℚ) :
    setAt (List.replicate n 0) src 0 = src ++ List.replicate (n - src.length) 0 := by
  simp [setAt, List.drop_replicate]

lemma setAt_zero_eq_exact (n : ℕ) (src : List ℚ) (h : src.length = n) :
    setAt (List.replicate n 0) src 0 = src := by
  rw [setAt_zero_pad, h, Nat.sub_self, List.replicate_zero, List.append_nil]

lemma setAt_append_suffix (x rest src : List ℚ) (h : rest.length = src.length) :
    setAt (x ++ rest) src x.length = x ++ src := by
  unfold setAt
  rw [List.take_left, List.drop_append, List.drop_eq_nil_of_le (by omega),
    List.append_nil]

lemma setAt_getD_left (dst src : List ℚ) (off j : ℕ) (d : ℚ)
    (hoff : off ≤ dst.length) (hj : j < off) :
    (setAt dst src off).getD j d = dst.getD j d := by
  unfold setAt
  rw [List.append_assoc, getD_append_left _ _ _ _ (by simp [List.length_take]; omega),
    getD_take _ _ _ _ hj]

lemma setAt_getD_mid (dst src : List ℚ) (off j : ℕ) (d : ℚ)
    (hoff : off ≤ dst.length) (hj1 : off ≤ j) (hj2 : j < off + src.length) :
    (setAt dst src off).getD j d = src.getD (j - off) d := by
  unfold setAt
  rw [List.append_assoc, getD_append_right _ _ _ _ (by simp [List.length_take]; omega),
    getD_append_left _ _ _ _ (by simp [List.length_take]; omega)]
  congr 1
  simp [List.length_take]
  omega

lemma setAt_getD_right (dst src : List ℚ) (off j : ℕ) (d : ℚ)
    (hoff : off ≤ dst.length) (hj : off + src.length ≤ j) :
    (setAt dst src off).getD j d = dst.getD j d := by
  unfold setAt
  rw [List.append_assoc, getD_append_right _ _ _ _ (by simp [List.length_take]; omega),
    getD_append_right _ _ _ _ (by simp [List.length_take]; omega), getD_drop]
  congr 1
  simp [List.length_take]
  omega

lemma fillRegionZero_getD (c : List ℚ) (sF eF j : ℕ) (d : ℚ)
    (hse : sF ≤ eF) (heF : eF ≤ c.length) :
    (fillRegionZero c sF eF).getD j d =
      if sF ≤ j ∧ j < eF then 0 else c.getD j d := by
  have hsf : sF ≤ c.length := le_trans hse heF
  unfold fillRegionZero
  rw [List.append_assoc]
  rcases Nat.lt_or_ge j sF with hj | hj
  · rw [if_neg (by omega), getD_append_left _ _ _ _ (by simp [List.length_take]; omega),
      getD_take _ _ _ _ hj]
  · rw [getD_append_right _ _ _ _ (by simp [List.length_take]; omega)]
    rcases Nat.lt_or_ge j eF with hj2 | hj2
    · rw [if_pos ⟨hj, hj2⟩,
        getD_append_left _ _ _ _
          (by simp [List.length_take, List.length_replicate]; omega),
        getD_replicate _ _ _ _ (by simp [List.length_take]; omega)]
    · rw [if_neg (by omega),
        getD_append_right _ _ _ _
          (by simp [List.length_take, List.length_replicate]; omega),
        getD_drop]
      congr 1
      simp [List.length_take, List.length_replicate]
      omega

lemma fillRegionZero_length (c : List ℚ) (sF eF : ℕ) (hse : sF ≤ eF)
    (heF : eF ≤ c.length) : (fillRegionZero c sF eF).length = c.length := by
  simp only [fillRegionZero, List.length_append, List.length_take,
    List.length_replicate, List.length_drop]
  omega

lemma Valid.channel_length {b : AudioBuffer} (hb : Valid b) {i : ℕ}
    (h : i < b.numberOfChannels) : (b.channels.getD i []).length = b.length := by
  have h' : b.channels.getD i [] = b.channels[i] := by
    simp [List.getD_eq_getElem?_getD, List.getElem?_eq_getElem h]
  rw [h']
  exact hb.2 _ (List.getElem_mem h)

lemma ensureStereo_sampleRate (b : AudioBuffer) :
    (ensureStereo b).sampleRate = b.sampleRate := by
  unfold ensureStereo; split <;> rfl

lemma ensureStereo_length (b : AudioBuffer) :
    (ensureStereo b).length = b.length := by
  unfold ensureStereo; split <;> rfl

lemma ensureStereo_of_ge (b : AudioBuffer) (h : 2 ≤ b.numberOfChannels) :
    ensureStereo b = b := by
  unfold ensureStereo; rw [if_pos h]

lemma ensureStereo_mono (b : AudioBuffer) (hb : Valid b)
    (h : b.numberOfChannels = 1) :
    ensureStereo b =
      ⟨b.sampleRate, b.length, [b.getChannelData 0, b.getChannelData 0]⟩ := by
  unfold ensureStereo
  rw [if_neg (by omega)]
  have hc : (b.getChannelData 0).length = b.length := hb.channel_length (by omega)
  rw [setAt_zero_eq_exact _ _ hc]

lemma ensureStereo_valid (b : AudioBuffer) (hb : Valid b) :
    Valid (ensureStereo b) := by
  rcases Nat.lt_or_ge b.numberOfChannels 2 with h | h
  · have h1 : b.numberOfChannels = 1 := by
      have := hb.1; unfold AudioBuffer.numberOfChannels at h ⊢; omega
    rw [ensureStereo_mono b hb h1]
    have hc : (b.getChannelData 0).length = b.length := hb.channel_length (by omega)
    constructor
    · simp
    · intro c hc'
      simp at hc'
      rcases hc' with rfl | rfl <;> exact hc
  · rw [ensureStereo_of_ge b h]; exact hb

lemma ensureStereo_ge2 (b : AudioBuffer) (hb : Valid b) :
    2 ≤ (ensureStereo b).numberOfChannels := by
  rcases Nat.lt_or_ge b.numberOfChannels 2 with h | h
  · have h1 : b.numberOfChannels = 1 := by
      have := hb.1; unfold AudioBuffer.numberOfChannels at h ⊢; omega
    rw [ensureStereo_mono b hb h1]
    simp [AudioBuffer.numberOfChannels]
  · rw [ensureStereo_of_ge b h]; exact h

/-! Frame clamping and PCM conversion lemmas. -/

lemma ratFloor_eq_intFloor (q : ℚ) : Rat.floor q = ⌊q⌋ := by
  rw [Rat.floor_def', Rat.floor_def]

lemma clampFrame_le (t : ℚ) (r L : ℕ) : clampFrame t r L ≤ L := by
  unfold clampFrame
  apply Int.toNat_le.mpr
  exact max_le (Int.natCast_nonneg L) (min_le_right _ _)

lemma clampFrame_mono (t u : ℚ) (r L : ℕ) (h : t ≤ u) :
    clampFrame t r L ≤ clampFrame u r L := by
  unfold clampFrame
  apply Int.toNat_le_toNat
  apply max_le_max le_rfl
  apply min_le_min _ le_rfl
  rw [ratFloor_eq_intFloor, ratFloor_eq_intFloor]
  exact Int.floor_mono (mul_le_mul_of_nonneg_right h (by positivity))

lemma clampFrame_zero (r L : ℕ) : clampFrame 0 r L = 0 := by
  unfold clampFrame
  rw [zero_mul, ratFloor_eq_intFloor, Int.floor_zero]
  simp

lemma clampFrame_duration (r L : ℕ) (hr : 0 < r) :
    clampFrame ((L : ℚ) / (r : ℚ)) r L = L := by
  unfold clampFrame
  have hrr : ((L : ℚ) / (r : ℚ)) * (r : ℚ) = (L : ℚ) := by
    field_simp
  rw [hrr, ratFloor_eq_intFloor, Int.floor_natCast]
  simp

lemma toInt16Wrap_id (x : ℤ) (h1 : -32768 ≤ x) (h2 : x ≤ 32767) :
    toInt16Wrap x = x := by
  unfold toInt16Wrap
  omega

lemma pcm16_eq_trunc (x : ℚ) : pcm16OfSample x = specTruncWavSample x := by
  simp only [pcm16OfSample, specTruncWavSample, ratTrunc]
  set s := max (-1 : ℚ) (min 1 x) with hs
  have hs1 : (-1 : ℚ) ≤ s := le_max_left _ _
  have hs2 : s ≤ 1 := max_le (by norm_num) (min_le_left _ _)
  by_cases h : s < 0
  · have hneg : s * 32768 < 0 := mul_neg_of_neg_of_pos h (by norm_num)
    rw [if_pos h, if_pos h, if_pos hneg]
    rw [ratFloor_eq_intFloor]
    apply toInt16Wrap_id
    · have hb : ⌊-(s * 32768)⌋ ≤ ⌊((32768 : ℤ) : ℚ)⌋ := by
        apply Int.floor_mono
        push_cast
        nlinarith
      rw [Int.floor_intCast] at hb
      omega
    · have hb : (0 : ℤ) ≤ ⌊-(s * 32768)⌋ := by
        apply Int.le_floor.mpr
        push_cast
        nlinarith
      omega
  · have hpos : ¬ s * 32767 < 0 := by
      push_neg
      have : (0 : ℚ) ≤ s := not_lt.mp h
      positivity
    rw [if_neg h, if_neg h, if_neg hpos]
    rw [ratFloor_eq_intFloor]
    apply toInt16Wrap_id
    · have hb : (0 : ℤ) ≤ ⌊s * 32767⌋ := by
        apply Int.le_floor.mpr
        push_cast
        nlinarith [not_lt.mp h]
      omega
    · have hb : ⌊s * 32767⌋ ≤ ⌊((32767 : ℤ) : ℚ)⌋ := by
        apply Int.floor_mono
        push_cast
        nlinarith
      rw [Int.floor_intCast] at hb
      omega

/-! Characterizations of the region operations. -/

lemma range_map_getD_at {β : Type} (n : ℕ) (g : ℕ → β) (i : ℕ) (d : β)
    (h : i < n) : ((List.range n).map g).getD i d = g i := by
  rw [getD_map _ _ _ _ 0 (by simpa using h), getD_range _ _ _ h]

lemma cutWorkingBuffer_stereo (b : AudioBuffer) :
    cutWorkingBuffer b ChannelMode.stereo = b := by
  simp [cutWorkingBuffer]

lemma extractWorkingBuffer_stereo (b : AudioBuffer) :
    extractWorkingBuffer b ChannelMode.stereo = b := by
  simp [extractWorkingBuffer]

lemma cutStereoChannel_eq (c : List ℚ) (L sF eF nl : ℕ)
    (hc : c.length = L) (hsF : sF ≤ L) (heF : eF ≤ L)
    (hnl : nl = sF + (L - eF)) :
    cutStereoChannel c nl sF eF L = c.take sF ++ c.drop eF := by
  simp only [cutStereoChannel]
  have htake : (c.take sF).length = sF := by simp [hc, List.length_take]; omega
  by_cases h1 : 0 < sF
  · rw [if_pos h1, setAt_zero_pad, htake]
    by_cases h2 : eF < L
    · rw [if_pos h2]
      have hrest := setAt_append_suffix (c.take sF)
        (List.replicate (nl - sF) 0) (c.drop eF)
        (by simp [List.length_replicate, List.length_drop, hc]; omega)
      rw [htake] at hrest
      exact hrest
    · rw [if_neg h2]
      have heq : eF = L := by omega
      have hnl0 : nl - sF = 0 := by omega
      rw [hnl0, heq, List.replicate_zero,
        List.drop_eq_nil_of_le (by omega)]
  · rw [if_neg h1]
    have hsF0 : sF = 0 := by omega
    subst hsF0
    by_cases h2 : eF < L
    · rw [if_pos h2, setAt_zero_eq_exact _ _ (by simp [List.length_drop, hc]; omega)]
      simp
    · rw [if_neg h2]
      have heq : eF = L := by omega
      have hnl0 : nl = 0 := by omega
      rw [hnl0, heq, List.replicate_zero, List.take_zero,
        List.drop_eq_nil_of_le (by omega)]
      simp

lemma cut_newLength_eq (L sF eF : ℕ) (hsF : sF ≤ L) (heF : eF ≤ L) :
    (max 0 ((L : ℤ) - ((eF : ℤ) - (sF : ℤ)))).toNat = sF + (L - eF) := by
  omega

lemma cutAudioRegion_stereo_char (b : AudioBuffer) (hb : Valid b) (s e : ℚ)
    (h : 0 < clampFrame s b.sampleRate b.length
          + (b.length - clampFrame e b.sampleRate b.length)) :
    cutAudioRegion b s e ChannelMode.stereo =
      ⟨b.sampleRate,
       clampFrame s b.sampleRate b.length
         + (b.length - clampFrame e b.sampleRate b.length),
       b.channels.map (fun c =>
         c.take (clampFrame s b.sampleRate b.length)
           ++ c.drop (clampFrame e b.sampleRate b.length))⟩ := by
  have hsF := clampFrame_le s b.sampleRate b.length
  have heF := clampFrame_le e b.sampleRate b.length
  simp only [cutAudioRegion, cutWorkingBuffer_stereo]
  rw [if_pos trivial, cut_newLength_eq _ _ _ hsF heF, if_neg (by omega)]
  simp only [AudioBuffer.numberOfChannels, AudioBuffer.getChannelData]
  refine congrArg (AudioBuffer.mk b.sampleRate _) ?_
  rw [← range_map_getD b.channels (fun c =>
    c.take (clampFrame s b.sampleRate b.length)
      ++ c.drop (clampFrame e b.sampleRate b.length)) []]
  apply List.map_congr_left
  intro i hi
  rw [List.mem_range] at hi
  exact cutStereoChannel_eq _ b.length _ _ _
    (Valid.channel_length hb hi) hsF heF rfl

lemma extractAudioRegion_stereo_char (b : AudioBuffer) (hb : Valid b) (s e : ℚ)
    (h : clampFrame s b.sampleRate b.length < clampFrame e b.sampleRate b.length) :
    extractAudioRegion b s e ChannelMode.stereo =
      ⟨b.sampleRate,
       clampFrame e b.sampleRate b.length - clampFrame s b.sampleRate b.length,
       b.channels.map (fun c =>
         (c.drop (clampFrame s b.sampleRate b.length)).take
           (clampFrame e b.sampleRate b.length
             - clampFrame s b.sampleRate b.length))⟩ := by
  have hsF := clampFrame_le s b.sampleRate b.length
  have heF := clampFrame_le e b.sampleRate b.length
  simp only [extractAudioRegion, extractWorkingBuffer_stereo]
  rw [if_neg (show ¬(clampFrame e b.sampleRate b.length
      - clampFrame s b.sampleRate b.length = 0) by omega), if_pos trivial]
  simp only [AudioBuffer.numberOfChannels, AudioBuffer.getChannelData, subarray]
  refine congrArg (AudioBuffer.mk b.sampleRate _) ?_
  rw [← range_map_getD b.channels (fun c =>
    (c.drop (clampFrame s b.sampleRate b.length)).take
      (clampFrame e b.sampleRate b.length
        - clampFrame s b.sampleRate b.length)) []]
  apply List.map_congr_left
  intro i hi
  rw [List.mem_range] at hi
  have hlen : (b.channels.getD i []).length = b.length := Valid.channel_length hb hi
  rw [setAt_zero_eq_exact]
  simp only [List.length_take, List.length_drop, hlen]
  omega

lemma concat_char (b1 b2 : AudioBuffer) (hb1 : Valid b1) (hb2 : Valid b2)
    (h : b1.numberOfChannels = b2.numberOfChannels) :
    concatenateAudioBuffers b1 b2 =
      ⟨b1.sampleRate, b1.length + b2.length,
       (List.range b1.numberOfChannels).map (fun i =>
         b1.getChannelData i ++ b2.getChannelData i)⟩ := by
  simp only [concatenateAudioBuffers]
  rw [← h, max_self]
  refine congrArg (AudioBuffer.mk b1.sampleRate _) ?_
  apply List.map_congr_left
  intro i hi
  rw [List.mem_range] at hi
  rw [if_pos hi, if_pos (show i < b1.numberOfChannels from hi)]
  rw [setAt_zero_pad]
  have h1 : (b1.getChannelData i).length = b1.length := hb1.channel_length hi
  have h2 : (b2.getChannelData i).length = b2.length :=
    hb2.channel_length (h ▸ hi)
  rw [h1]
  have hrest := setAt_append_suffix (b1.getChannelData i)
    (List.replicate (b1.length + b2.length - b1.length) 0) (b2.getChannelData i)
    (by simp [List.length_replicate, h2])
  rw [h1] at hrest
  exact hrest

lemma cutWorkingBuffer_sampleRate (b : AudioBuffer) (mode : ChannelMode) :
    (cutWorkingBuffer b mode).sampleRate = b.sampleRate := by
  unfold cutWorkingBuffer
  split
  · exact ensureStereo_sampleRate b
  · rfl

lemma cutWorkingBuffer_length (b : AudioBuffer) (mode : ChannelMode) :
    (cutWorkingBuffer b mode).length = b.length := by
  unfold cutWorkingBuffer
  split
  · exact ensureStereo_length b
  · rfl

lemma cutWorkingBuffer_valid (b : AudioBuffer) (hb : Valid b)
    (mode : ChannelMode) : Valid (cutWorkingBuffer b mode) := by
  unfold cutWorkingBuffer
  split
  · exact ensureStereo_valid b hb
  · exact hb

lemma extractWorkingBuffer_sampleRate (b : AudioBuffer) (mode : ChannelMode) :
    (extractWorkingBuffer b mode).sampleRate = b.sampleRate := by
  unfold extractWorkingBuffer
  split
  · exact ensureStereo_sampleRate b
  · rfl

lemma extractWorkingBuffer_length (b : AudioBuffer) (mode : ChannelMode) :
    (extractWorkingBuffer b mode).length = b.length := by
  unfold extractWorkingBuffer
  split
  · exact ensureStereo_length b
  · rfl

lemma pasteWorkingBuffer_sampleRate (target : AudioBuffer) :
    (pasteWorkingBuffer target).sampleRate = target.sampleRate := by
  unfold pasteWorkingBuffer
  split
  · exact ensureStereo_sampleRate target
  · rfl

lemma pasteWorkingBuffer_length (target : AudioBuffer) :
    (pasteWorkingBuffer target).length = target.length := by
  unfold pasteWorkingBuffer
  split
  · exact ensureStereo_length target
  · rfl

lemma pasteWorkingBuffer_valid (target : AudioBuffer) (hb : Valid target) :
    Valid (pasteWorkingBuffer target) := by
  unfold pasteWorkingBuffer
  split
  · exact ensureStereo_valid target hb
  · exact hb

lemma pasteWorkingBuffer_ge2 (target : AudioBuffer) (hb : Valid target) :
    2 ≤ (pasteWorkingBuffer target).numberOfChannels := by
  unfold pasteWorkingBuffer
  split
  · exact ensureStereo_ge2 target hb
  · next h =>
    have := hb.1
    unfold AudioBuffer.numberOfChannels at h ⊢
    omega

/-! Claim theorems. -/

/-- C4: for every buffer and all times, `cutAudioRegion` in Stereo mode removes
the frames `[startFrame, endFrame)` (clamped into `[0, frameCount]`) from every
channel: the result length is `frameCount - (endFrame - startFrame)` clamped to
`≥ 0`, and each output channel is the pre-region prefix concatenated with the
post-region suffix; when everything is removed (clamped new length 0) the
result is a minimal 1-frame buffer instead of a 0-length one. -/
theorem cutRegion_stereo_ripple_delete (b : AudioBuffer) (hb : Valid b)
    (s e : ℚ) :
    if (max 0 ((b.length : ℤ) - ((clampFrame e b.sampleRate b.length : ℤ)
          - (clampFrame s b.sampleRate b.length : ℤ)))).toNat = 0 then
      cutAudioRegion b s e ChannelMode.stereo
        = createBuffer b.numberOfChannels 1 b.sampleRate
    else
      (cutAudioRegion b s e ChannelMode.stereo).length
          = (max 0 ((b.length : ℤ) - ((clampFrame e b.sampleRate b.length : ℤ)
              - (clampFrame s b.sampleRate b.length : ℤ)))).toNat ∧
      (cutAudioRegion b s e ChannelMode.stereo).channels
          = b.channels.map (fun c =>
              c.take (clampFrame s b.sampleRate b.length)
                ++ c.drop (clampFrame e b.sampleRate b.length)) := by
  have hsF := clampFrame_le s b.sampleRate b.length
  have heF := clampFrame_le e b.sampleRate b.length
  have hnl := cut_newLength_eq b.length (clampFrame s b.sampleRate b.length)
    (clampFrame e b.sampleRate b.length) hsF heF
  rw [hnl]
  by_cases h0 : clampFrame s b.sampleRate b.length
      + (b.length - clampFrame e b.sampleRate b.length) = 0
  · rw [if_pos h0]
    simp only [cutAudioRegion, cutWorkingBuffer_stereo]
    rw [if_pos trivial, hnl, if_pos h0]
  · rw [if_neg h0]
    rw [cutAudioRegion_stereo_char b hb s e (by omega)]
    exact ⟨rfl, rfl⟩

/-- C10: whenever the clamped region is empty (`endFrame ≤ startFrame`),
`extractAudioRegion` returns `createBuffer(1, 1, rate)` — exactly one channel
and one zero frame — for every channel mode, so the empty-region result never
preserves the input's channel count. -/
theorem extractRegion_empty_minimal (b : AudioBuffer) (s e : ℚ)
    (mode : ChannelMode)
    (h : clampFrame e b.sampleRate b.length ≤ clampFrame s b.sampleRate b.length) :
    extractAudioRegion b s e mode = createBuffer 1 1 b.sampleRate ∧
    (extractAudioRegion b s e mode).numberOfChannels = 1 ∧
    (extractAudioRegion b s e mode).length = 1 := by
  have h1 : extractAudioRegion b s e mode = createBuffer 1 1 b.sampleRate := by
    simp only [extractAudioRegion, extractWorkingBuffer_sampleRate,
      extractWorkingBuffer_length]
    rw [if_pos (by omega)]
  refine ⟨h1, ?_, ?_⟩ <;> rw [h1] <;> rfl

/-- C7: in Left or Right mode, `cutAudioRegion` first normalizes the buffer to
stereo (`cutWorkingBuffer`, the identity on multichannel input), preserves the
buffer length and sample rate, zeroes exactly the targeted channel's samples in
`[startFrame, endFrame)`, and leaves the other channels and every frame outside
the region equal to the normalized input. -/
theorem cutRegion_channel_silence (b : AudioBuffer) (hb : Valid b)
    (mode : ChannelMode)
    (hm : mode = ChannelMode.left ∨ mode = ChannelMode.right) (s e : ℚ) :
    (cutAudioRegion b s e mode).sampleRate = b.sampleRate ∧
    (cutAudioRegion b s e mode).length = b.length ∧
    (cutAudioRegion b s e mode).numberOfChannels
        = (cutWorkingBuffer b mode).numberOfChannels ∧
    ∀ i < (cutWorkingBuffer b mode).numberOfChannels, ∀ j < b.length,
      ((cutAudioRegion b s e mode).channels.getD i []).getD j 0 =
        (if ((mode = ChannelMode.left ∧ i = 0) ∨ (mode = ChannelMode.right ∧ i = 1))
            ∧ clampFrame s b.sampleRate b.length ≤ j
            ∧ j < clampFrame e b.sampleRate b.length then 0
         else ((cutWorkingBuffer b mode).channels.getD i []).getD j 0) := by
  have hmne : mode ≠ ChannelMode.stereo := by
    rcases hm with rfl | rfl <;> simp
  have hw : Valid (cutWorkingBuffer b mode) := cutWorkingBuffer_valid b hb mode
  simp only [cutAudioRegion, cutWorkingBuffer_sampleRate, cutWorkingBuffer_length]
  rw [if_neg hmne]
  refine ⟨rfl, rfl, by simp [AudioBuffer.numberOfChannels], ?_⟩
  intro i hi j hj
  rw [range_map_getD_at _ _ _ _ hi]
  have hclen : ((cutWorkingBuffer b mode).getChannelData i).length = b.length := by
    have hv := Valid.channel_length hw hi
    unfold AudioBuffer.getChannelData
    rw [hv, cutWorkingBuffer_length]
  rw [setAt_zero_eq_exact _ _ hclen]
  by_cases ht : (mode = ChannelMode.left ∧ i = 0) ∨ (mode = ChannelMode.right ∧ i = 1)
  · by_cases hr : clampFrame s b.sampleRate b.length
        < clampFrame e b.sampleRate b.length
    · rw [if_pos ⟨ht, hr⟩,
        fillRegionZero_getD _ _ _ _ _ (le_of_lt hr)
          (by rw [hclen]; exact clampFrame_le e b.sampleRate b.length)]
      by_cases hj2 : clampFrame s b.sampleRate b.length ≤ j
          ∧ j < clampFrame e b.sampleRate b.length
      · rw [if_pos hj2, if_pos ⟨ht, hj2.1, hj2.2⟩]
      · rw [if_neg hj2, if_neg (by tauto)]
        rfl
    · rw [if_neg (by tauto), if_neg (by
        rintro ⟨-, hj1, hj2⟩
        exact hr (lt_of_le_of_lt hj1 hj2))]
      rfl
  · rw [if_neg (by tauto), if_neg (by tauto)]
    rfl

/-- C8: `pasteAudioToChannel` normalizes the target to stereo, returns a buffer
of length `max(target.length, startFrame + paste.length)` with
`startFrame = max(0, floor(atSec * rate))`, overwrites only the channel
selected by the mode (Left → 0, Right → 1) with the paste's first channel on
`[startFrame, startFrame + paste.length)` (frames of the original target
elsewhere, silence beyond its end), and keeps every other channel identical to
the normalized target's corresponding frames. -/
theorem pasteToChannel_overwrite (target paste : AudioBuffer)
    (hbt : Valid target) (hbp : Valid paste) (mode : ChannelMode)
    (hm : mode = ChannelMode.left ∨ mode = ChannelMode.right) (atSec : ℚ) :
    (pasteAudioToChannel target paste atSec mode).length
        = max target.length (pasteStartFrame atSec target.sampleRate + paste.length) ∧
    (pasteAudioToChannel target paste atSec mode).sampleRate = target.sampleRate ∧
    (pasteAudioToChannel target paste atSec mode).numberOfChannels
        = (pasteWorkingBuffer target).numberOfChannels ∧
    (∀ j < max target.length (pasteStartFrame atSec target.sampleRate + paste.length),
      ((pasteAudioToChannel target paste atSec mode).getChannelData
          (if mode = ChannelMode.left then 0 else 1)).getD j 0
        = if pasteStartFrame atSec target.sampleRate ≤ j
              ∧ j < pasteStartFrame atSec target.sampleRate + paste.length then
            (paste.getChannelData 0).getD (j - pasteStartFrame atSec target.sampleRate) 0
          else if j < target.length then
            ((pasteWorkingBuffer target).getChannelData
              (if mode = ChannelMode.left then 0 else 1)).getD j 0
          else 0) ∧
    (∀ i < (pasteWorkingBuffer target).numberOfChannels,
      i ≠ (if mode = ChannelMode.left then 0 else 1) →
      ∀ j < target.length,
        ((pasteAudioToChannel target paste atSec mode).getChannelData i).getD j 0
          = ((pasteWorkingBuffer target).getChannelData i).getD j 0) := by
  have hw : Valid (pasteWorkingBuffer target) := pasteWorkingBuffer_valid target hbt
  have hge2 := pasteWorkingBuffer_ge2 target hbt
  have hL := pasteWorkingBuffer_length target
  simp only [pasteAudioToChannel, pasteWorkingBuffer_sampleRate,
    pasteWorkingBuffer_length, AudioBuffer.getChannelData]
  set sF := pasteStartFrame atSec target.sampleRate with hsF
  set nl := max target.length (sF + paste.length) with hnl
  set k := (if mode = ChannelMode.left then 0 else 1 : ℕ) with hk
  have hkch : k < (pasteWorkingBuffer target).numberOfChannels := by
    rcases hm with rfl | rfl <;> simp [hk] <;> omega
  have hmaplen : ((pasteWorkingBuffer target).channels.map
      (fun c => setAt (List.replicate nl 0) c 0)).length
        = (pasteWorkingBuffer target).numberOfChannels := by
    simp [AudioBuffer.numberOfChannels]
  rw [if_pos (by rw [hmaplen]; exact hkch)]
  have hbase : ∀ i < (pasteWorkingBuffer target).numberOfChannels,
      ((pasteWorkingBuffer target).channels.map
        (fun c => setAt (List.replicate nl 0) c 0)).getD i []
      = (pasteWorkingBuffer target).channels.getD i []
          ++ List.replicate (nl - target.length) 0 := by
    intro i hi
    rw [getD_map _ _ _ _ [] hi, setAt_zero_pad, Valid.channel_length hw hi, hL]
  have hchlen : ∀ i < (pasteWorkingBuffer target).numberOfChannels,
      ((pasteWorkingBuffer target).channels.getD i []).length = target.length := by
    intro i hi
    rw [Valid.channel_length hw hi, hL]
  have htle : target.length ≤ nl := le_max_left _ _
  have hsle : sF + paste.length ≤ nl := le_max_right _ _
  have hplen : (paste.channels.getD 0 []).length = paste.length :=
    Valid.channel_length hbp hbp.1
  refine ⟨trivial, trivial, by simp [AudioBuffer.numberOfChannels], ?_, ?_⟩
  · intro j hj
    rw [getD_set_self _ _ _ _ (by rw [hmaplen]; exact hkch)]
    rw [hbase k hkch]
    have hdstlen : ((pasteWorkingBuffer target).channels.getD k []
        ++ List.replicate (nl - target.length) 0).length = nl := by
      rw [List.length_append, List.length_replicate, hchlen k hkch]
      omega
    by_cases h1 : sF ≤ j ∧ j < sF + paste.length
    · rw [if_pos h1,
        setAt_getD_mid _ _ _ _ _ (by rw [hdstlen]; omega) h1.1
          (by rw [hplen]; exact h1.2)]
    · rw [if_neg h1]
      have hout : (setAt ((pasteWorkingBuffer target).channels.getD k []
            ++ List.replicate (nl - target.length) 0)
            (paste.channels.getD 0 []) sF).getD j 0
          = ((pasteWorkingBuffer target).channels.getD k []
            ++ List.replicate (nl - target.length) 0).getD j 0 := by
        rcases Nat.lt_or_ge j sF with hj1 | hj1
        · exact setAt_getD_left _ _ _ _ _ (by rw [hdstlen]; omega) hj1
        · have hj2 : sF + paste.length ≤ j := by
            rcases Nat.lt_or_ge j (sF + paste.length) with hlt | hge
            · exact absurd ⟨hj1, hlt⟩ h1
            · exact hge
          exact setAt_getD_right _ _ _ _ _ (by rw [hdstlen]; omega)
            (by rw [hplen]; omega)
      rw [hout]
      by_cases h2 : j < target.length
      · rw [if_pos h2, getD_append_left _ _ _ _ (by rw [hchlen k hkch]; omega)]
      · rw [if_neg h2, getD_append_right _ _ _ _ (by rw [hchlen k hkch]; omega),
          getD_replicate _ _ _ _ (by rw [hchlen k hkch]; omega)]
  · intro i hi hne j hj
    rw [getD_set_ne _ _ _ _ _ (fun h => hne h.symm)]
    rw [hbase i hi, getD_append_left _ _ _ _ (by rw [hchlen i hi]; omega)]

/-- C3 (amended): for a stereo buffer and `0 ≤ s ≤ e ≤ duration`, whenever both
clamped pieces are non-empty (`1 ≤ startFrame` and `endFrame < frameCount`),
the stereo cut has length `frameCount - (endFrame - startFrame)` and equals,
sample for sample, the concatenation of `extractAudioRegion b 0 s` and
`extractAudioRegion b e duration`.  (At the boundary, where a clamped piece is
empty, `extractAudioRegion` returns a 1-frame mono placeholder instead and the
identity fails; see the counterexample.) -/
theorem cut_eq_concat_extract_interior (b : AudioBuffer) (hb : Valid b)
    (h2 : b.numberOfChannels = 2) (hr : 0 < b.sampleRate) (s e : ℚ)
    (hs0 : 0 ≤ s) (hse : s ≤ e)
    (hed : e ≤ (b.length : ℚ) / (b.sampleRate : ℚ))
    (h1 : 1 ≤ clampFrame s b.sampleRate b.length)
    (hend : clampFrame e b.sampleRate b.length < b.length) :
    (cutAudioRegion b s e ChannelMode.stereo).length
        = b.length - (clampFrame e b.sampleRate b.length
            - clampFrame s b.sampleRate b.length) ∧
    cutAudioRegion b s e ChannelMode.stereo
      = concatenateAudioBuffers (extractAudioRegion b 0 s ChannelMode.stereo)
          (extractAudioRegion b e ((b.length : ℚ) / (b.sampleRate : ℚ))
            ChannelMode.stereo) := by
  have hse' : clampFrame s b.sampleRate b.length
      ≤ clampFrame e b.sampleRate b.length :=
    clampFrame_mono s e b.sampleRate b.length hse
  have hsF := clampFrame_le s b.sampleRate b.length
  have heF := clampFrame_le e b.sampleRate b.length
  have hcut := cutAudioRegion_stereo_char b hb s e (by omega)
  have he1 := extractAudioRegion_stereo_char b hb 0 s
    (by rw [clampFrame_zero]; omega)
  rw [clampFrame_zero] at he1
  simp only [Nat.sub_zero, List.drop_zero] at he1
  have he2 := extractAudioRegion_stereo_char b hb e
    ((b.length : ℚ) / (b.sampleRate : ℚ)) (by rw [clampFrame_duration _ _ hr]; omega)
  rw [clampFrame_duration _ _ hr] at he2
  set sF := clampFrame s b.sampleRate b.length with hsFdef
  set eF := clampFrame e b.sampleRate b.length with heFdef
  have hchan : ∀ c ∈ b.channels, c.length = b.length := hb.2
  have hb1 : Valid ⟨b.sampleRate, sF, b.channels.map (fun c => c.take sF)⟩ := by
    constructor
    · simpa using hb.1
    · intro c hc
      simp only [List.mem_map] at hc
      rcases hc with ⟨a, ha, rfl⟩
      simp only [List.length_take, hchan a ha]
      omega
  have hb2 : Valid ⟨b.sampleRate, b.length - eF,
      b.channels.map (fun c => (c.drop eF).take (b.length - eF))⟩ := by
    constructor
    · simpa using hb.1
    · intro c hc
      simp only [List.mem_map] at hc
      rcases hc with ⟨a, ha, rfl⟩
      simp only [List.length_take, List.length_drop, hchan a ha]
      exact min_self _
  have hcc := concat_char
    ⟨b.sampleRate, sF, b.channels.map (fun c => c.take sF)⟩
    ⟨b.sampleRate, b.length - eF,
      b.channels.map (fun c => (c.drop eF).take (b.length - eF))⟩
    hb1 hb2 (by simp [AudioBuffer.numberOfChannels])
  constructor
  · rw [hcut]
    show sF + (b.length - eF) = b.length - (eF - sF)
    omega
  · rw [hcut, he1, he2, hcc]
    simp only [AudioBuffer.mk.injEq, AudioBuffer.numberOfChannels,
      AudioBuffer.length, List.length_map]
    refine ⟨trivial, trivial, ?_⟩
    rw [← range_map_getD b.channels (fun c => c.take sF ++ c.drop eF) []]
    apply List.map_congr_left
    intro i hi
    rw [List.mem_range] at hi
    have hclen : (b.channels.getD i []).length = b.length :=
      Valid.channel_length hb hi
    simp only [AudioBuffer.getChannelData]
    rw [getD_map _ _ _ _ [] hi, getD_map _ _ _ _ [] hi]
    congr 1
    have hdlen : ((b.channels.getD i []).drop eF).length = b.length - eF := by
      rw [List.length_drop, hclen]
    rw [← hdlen, List.take_length]

lemma length_range_flatMap {β : Type} (n B : ℕ) (f : ℕ → ℕ → β) :
    ((List.range n).flatMap (fun i => (List.range B).map (f i))).length
      = n * B := by
  induction n with
  | zero => simp
  | succ m ih =>
    rw [List.range_succ, List.flatMap_append, List.length_append, ih]
    simp [Nat.succ_mul]

lemma flatMap_range_map_getD {β : Type} (n B : ℕ) (f : ℕ → ℕ → β) (i ch : ℕ)
    (d : β) (hi : i < n) (hch : ch < B) :
    ((List.range n).flatMap (fun j => (List.range B).map (f j))).getD
        (i * B + ch) d = f i ch := by
  induction n with
  | zero => omega
  | succ m ih =>
    rw [List.range_succ, List.flatMap_append]
    rcases Nat.lt_or_ge i m with h | h
    · rw [getD_append_left _ _ _ _ ?_]
      · exact ih h
      · rw [length_range_flatMap]
        have hle : i + 1 ≤ m := h
        calc i * B + ch < i * B + B := by omega
          _ = (i + 1) * B := by ring
          _ ≤ m * B := Nat.mul_le_mul_right B hle
    · have hi' : i = m := by omega
      subst hi'
      rw [getD_append_right _ _ _ _ (by rw [length_range_flatMap]; omega),
        length_range_flatMap]
      have hidx : i * B + ch - i * B = ch := by omega
      rw [hidx]
      simp only [List.flatMap_cons, List.flatMap_nil, List.append_nil]
      rw [getD_map _ _ _ _ 0 (by simpa using hch), getD_range _ _ _ hch]

/-- C2 (amended): the 16-bit value `bufferToWave` stores for frame `i`,
channel `ch` sits at data-chunk position `i * numberOfChannels + ch`
(channel-major interleaving) and equals the float sample clamped to `[-1, 1]`
and converted by `s < 0 ? trunc(s * 32768) : trunc(s * 32767)` — truncation
toward zero (an `Int16Array` store), not rounding to nearest. -/
theorem wav_pcm_truncates_interleaved (b : AudioBuffer) (len : ℕ) (i ch : ℕ)
    (hi : i < len) (hch : ch < b.numberOfChannels) :
    (wavDataSamples b len).getD (i * b.numberOfChannels + ch) 0
      = specTruncWavSample ((b.getChannelData ch).getD i 0) := by
  unfold wavDataSamples
  rw [flatMap_range_map_getD len b.numberOfChannels
    (fun i ch => pcm16OfSample ((b.getChannelData ch).getD i 0)) i ch 0 hi hch,
    pcm16_eq_trunc]

/-- C6 (amended): `mixAllTracks` returns the 1-frame silent stereo buffer when
the maximum non-muted length is 0, and in general its length is
`max 1 (min L (lastNonZeroFrame + floor(0.5 * sampleRate)))`: the claimed
`min L (last + rate/2)` whenever that value is positive, and a minimal 1-frame
buffer when it degenerates to 0 (possible only when `rate ≤ 1` and no frame
exceeds the 1e-4 threshold, `lastNonZeroFrame` being 0 when no frame does). -/
theorem mixAll_trimmed_length (tracks : List Track) (ctxRate : ℕ) :
    (mixAllTracks tracks ctxRate).length
      = max 1 (min (mixMaxLength tracks) (mixLastFrame tracks + ctxRate / 2)) ∧
    (mixMaxLength tracks = 0 →
      mixAllTracks tracks ctxRate = ⟨ctxRate, 1, [[0], [0]]⟩) := by
  constructor
  · simp only [mixAllTracks]
    by_cases h0 : mixMaxLength tracks = 0
    · rw [if_pos h0, h0]
      simp [createBuffer]
    · rw [if_neg h0]
      by_cases h1 : min (mixMaxLength tracks) (mixLastFrame tracks + ctxRate / 2) = 0
      · rw [if_pos h1, h1]
        simp [createBuffer]
      · rw [if_neg h1]
        show min (mixMaxLength tracks) (mixLastFrame tracks + ctxRate / 2) = _
        omega
  · intro h0
    simp only [mixAllTracks]
    rw [if_pos h0]
    rfl

/-- C9: the pan gains of `applyAudioEffects` follow the constant-power law
`leftGain = cos(((pan+1)/2)·(π/2))`, `rightGain = sin(((pan+1)/2)·(π/2))`; at
`pan = 0` both gains are equal (difference 0, well within the 1e-9 tolerance)
and round to 0.70711 at five decimals (they are `√2/2 = 0.7071067…`, within
5e-6 of 0.70711); `pan = -1` gives exactly `(1, 0)` and `pan = 1` exactly
`(0, 1)`, each within the 1e-9 tolerance. -/
theorem applyEffects_constant_power_pan :
    (∀ pan : ℝ,
      (applyEffectsGains pan).1 = Real.cos (((pan + 1) / 2) * (Real.pi / 2)) ∧
      (applyEffectsGains pan).2 = Real.sin (((pan + 1) / 2) * (Real.pi / 2))) ∧
    (applyEffectsGains 0).1 = (applyEffectsGains 0).2 ∧
    |(applyEffectsGains 0).1 - 0.70711| ≤ 5e-6 ∧
    |(applyEffectsGains (-1)).1 - 1| ≤ 1e-9 ∧
    |(applyEffectsGains (-1)).2 - 0| ≤ 1e-9 ∧
    |(applyEffectsGains 1).1 - 0| ≤ 1e-9 ∧
    |(applyEffectsGains 1).2 - 1| ≤ 1e-9 := by
  have hzero : ((0 : ℝ) + 1) / 2 * (Real.pi / 2) = Real.pi / 4 := by ring
  have hm1 : ((-1 : ℝ) + 1) / 2 * (Real.pi / 2) = 0 := by ring
  have hp1 : ((1 : ℝ) + 1) / 2 * (Real.pi / 2) = Real.pi / 2 := by ring
  have h2 : Real.sqrt 2 ^ 2 = 2 := Real.sq_sqrt (by norm_num)
  have h0 : (0 : ℝ) ≤ Real.sqrt 2 := Real.sqrt_nonneg 2
  have hup : Real.sqrt 2 ≤ 1.41422 := by
    nlinarith [h2, h0, sq_nonneg (Real.sqrt 2 - 1.41422)]
  have hlow : (1.41421 : ℝ) ≤ Real.sqrt 2 := by
    nlinarith [h2, h0, sq_nonneg (Real.sqrt 2 - 1.41421), sq_nonneg (Real.sqrt 2 + 1.41421)]
  refine ⟨fun pan => ⟨rfl, rfl⟩, ?_, ?_, ?_, ?_, ?_, ?_⟩
  · show Real.cos _ = Real.sin _
    rw [hzero, Real.cos_pi_div_four, Real.sin_pi_div_four]
  · show |Real.cos _ - 0.70711| ≤ 5e-6
    rw [hzero, Real.cos_pi_div_four, abs_le]
    constructor <;> nlinarith [hup, hlow]
  · show |Real.cos _ - 1| ≤ 1e-9
    rw [hm1, Real.cos_zero]
    norm_num
  · show |Real.sin _ - 0| ≤ 1e-9
    rw [hm1, Real.sin_zero]
    norm_num
  · show |Real.cos _ - 0| ≤ 1e-9
    rw [hp1, Real.cos_pi_div_two]
    norm_num
  · show |Real.sin _ - 1| ≤ 1e-9
    rw [hp1, Real.sin_pi_div_two]
    norm_num

lemma clampSample1_bounds (y : ℚ) : -1 ≤ clampSample1 y ∧ clampSample1 y ≤ 1 := by
  unfold clampSample1
  split_ifs with h1 h2
  · constructor <;> norm_num
  · constructor <;> norm_num
  · exact ⟨not_lt.mp h2, not_lt.mp h1⟩

lemma mixClamped_fst (tracks : List Track) :
    (mixClamped tracks).1
      = (mixSums tracks (mixMaxLength tracks)).1.map clampSample1 := rfl

lemma mixClamped_snd (tracks : List Track) :
    (mixClamped tracks).2
      = (mixSums tracks (mixMaxLength tracks)).2.map clampSample1 := rfl

lemma mem_setAt_clamped (l : List ℚ) (n m : ℕ) (x : ℚ)
    (hx : x ∈ setAt (List.replicate n 0) ((l.map clampSample1).take m) 0) :
    -1 ≤ x ∧ x ≤ 1 := by
  rw [setAt_zero_pad] at hx
  rcases List.mem_append.mp hx with h | h
  · have hx' : x ∈ l.map clampSample1 := List.take_subset _ _ h
    rcases List.mem_map.mp hx' with ⟨y, -, rfl⟩
    exact clampSample1_bounds y
  · have hx0 := List.eq_of_mem_replicate h
    subst hx0
    constructor <;> norm_num

section ConcreteEvaluation

attribute [local semireducible] Rat.add Rat.mul Rat.sub Rat.inv

/-- C5: every sample of both channels of `mixAllTracks` lies in `[-1, 1]` (the
hard-clip limiter clamps each accumulated value to the nearest bound,
independently per channel), and mixing two non-muted tracks of constant sample
0.8 yields output samples equal to exactly 1, not 1.6. -/
theorem mixAll_limiter_clamps :
    (∀ (tracks : List Track) (ctxRate : ℕ) (c : List ℚ) (x : ℚ),
        c ∈ (mixAllTracks tracks ctxRate).channels → x ∈ c →
        -1 ≤ x ∧ x ≤ 1) ∧
    mixAllTracks
        [⟨⟨2, 1, [[mkRat 4 5]]⟩, false⟩, ⟨⟨2, 1, [[mkRat 4 5]]⟩, false⟩] 2
      = ⟨2, 1, [[1], [1]]⟩ := by
  constructor
  · intro tracks ctxRate c x hc hx
    simp only [mixAllTracks] at hc
    split_ifs at hc with h0 h1
    · simp only [createBuffer] at hc
      have hc' := List.eq_of_mem_replicate hc
      subst hc'
      have hx' := List.eq_of_mem_replicate hx
      subst hx'
      constructor <;> norm_num
    · simp only [createBuffer] at hc
      have hc' := List.eq_of_mem_replicate hc
      subst hc'
      have hx' := List.eq_of_mem_replicate hx
      subst hx'
      constructor <;> norm_num
    · simp only [List.mem_cons, List.not_mem_nil, or_false] at hc
      rcases hc with rfl | rfl
      · rw [mixClamped_fst] at hx
        exact mem_setAt_clamped _ _ _ _ hx
      · rw [mixClamped_snd] at hx
        exact mem_setAt_clamped _ _ _ _ hx
  · decide

/-- C1 (evaluation at the failing input): a reversed range in Stereo mode is
not treated as empty — with 3 frames at 1 Hz and the region from 2 s down to
1 s (clamped frames 2 > 1), `cutAudioRegion` returns a 4-frame buffer in which
frame 1 is duplicated, instead of returning its input unchanged. -/
theorem cutRegion_stereo_reversed_grows :
    clampFrame 1 1 3 < clampFrame 2 1 3 ∧
    cutAudioRegion ⟨1, 3, [[1, 2, 3], [10, 20, 30]]⟩ 2 1 ChannelMode.stereo
      = ⟨1, 4, [[1, 2, 2, 3], [10, 20, 20, 30]]⟩ ∧
    (cutAudioRegion ⟨1, 3, [[1, 2, 3], [10, 20, 30]]⟩ 2 1
        ChannelMode.stereo).length
      ≠ (⟨1, 3, [[1, 2, 3], [10, 20, 30]]⟩ : AudioBuffer).length := by
  decide

/-- C2 counterexample: for the sample 0.25 the encoder writes
`trunc(0.25 * 32767) = 8191`, while the claimed `round(0.25 * 32767)` is 8192. -/
theorem wav_round_counterexample :
    wavDataSamples ⟨1, 1, [[mkRat 1 4]]⟩ 1 = [8191] ∧
    specRoundWavSample (mkRat 1 4) = 8192 ∧
    (wavDataSamples ⟨1, 1, [[mkRat 1 4]]⟩ 1).getD 0 0
      ≠ specRoundWavSample (mkRat 1 4) := by
  decide

/-- C2 witness: the value written for frame 1, channel 0 of a 2-channel buffer
sits at data position `1 * 2 + 0` and is the truncated conversion of `-0.5`. -/
theorem wav_pcm_truncates_interleaved_witness :
    (1 : ℕ) < 2 ∧
    (0 : ℕ) < (⟨1, 2, [[mkRat 1 2, mkRat (-1) 2], [mkRat 1 4, 1]]⟩ :
      AudioBuffer).numberOfChannels ∧
    (wavDataSamples ⟨1, 2, [[mkRat 1 2, mkRat (-1) 2], [mkRat 1 4, 1]]⟩ 2).getD
        (1 * (⟨1, 2, [[mkRat 1 2, mkRat (-1) 2], [mkRat 1 4, 1]]⟩ :
          AudioBuffer).numberOfChannels + 0) 0
      = specTruncWavSample
          (((⟨1, 2, [[mkRat 1 2, mkRat (-1) 2], [mkRat 1 4, 1]]⟩ :
            AudioBuffer).getChannelData 0).getD 1 0) :=
  ⟨by decide, by decide,
    wav_pcm_truncates_interleaved
      ⟨1, 2, [[mkRat 1 2, mkRat (-1) 2], [mkRat 1 4, 1]]⟩ 2 1 0
      (by decide) (by decide)⟩

/-- C3 counterexample: at the boundary `s = e = 0` (allowed by
`0 ≤ s ≤ e ≤ duration`), the stereo cut of a 2-frame stereo buffer is a no-op
of length 2, but the concatenation of the two extracts has length 3, because
the empty first extract is a 1-frame mono placeholder. -/
theorem cut_concat_extract_counterexample :
    (cutAudioRegion ⟨1, 2, [[1, 1], [1, 1]]⟩ 0 0 ChannelMode.stereo).length
        = 2 ∧
    (concatenateAudioBuffers
        (extractAudioRegion ⟨1, 2, [[1, 1], [1, 1]]⟩ 0 0 ChannelMode.stereo)
        (extractAudioRegion ⟨1, 2, [[1, 1], [1, 1]]⟩ 0 2
          ChannelMode.stereo)).length = 3 ∧
    cutAudioRegion ⟨1, 2, [[1, 1], [1, 1]]⟩ 0 0 ChannelMode.stereo
      ≠ concatenateAudioBuffers
          (extractAudioRegion ⟨1, 2, [[1, 1], [1, 1]]⟩ 0 0 ChannelMode.stereo)
          (extractAudioRegion ⟨1, 2, [[1, 1], [1, 1]]⟩ 0 2
            ChannelMode.stereo) := by
  decide

/-- C3 witness: an interior region of a 4-frame stereo buffer, cut between 1 s
and 3 s at 1 Hz, where the cut equals the concatenation of the two extracts. -/
theorem cut_eq_concat_extract_interior_witness :
    Valid ⟨1, 4, [[1, 2, 3, 4], [5, 6, 7, 8]]⟩ ∧
    (⟨1, 4, [[1, 2, 3, 4], [5, 6, 7, 8]]⟩ : AudioBuffer).numberOfChannels = 2 ∧
    1 ≤ clampFrame 1 1 4 ∧
    clampFrame 3 1 4 < 4 ∧
    ((cutAudioRegion ⟨1, 4, [[1, 2, 3, 4], [5, 6, 7, 8]]⟩ 1 3
          ChannelMode.stereo).length
        = (⟨1, 4, [[1, 2, 3, 4], [5, 6, 7, 8]]⟩ : AudioBuffer).length
            - (clampFrame 3
                  (⟨1, 4, [[1, 2, 3, 4], [5, 6, 7, 8]]⟩ : AudioBuffer).sampleRate
                  (⟨1, 4, [[1, 2, 3, 4], [5, 6, 7, 8]]⟩ : AudioBuffer).length
                - clampFrame 1
                  (⟨1, 4, [[1, 2, 3, 4], [5, 6, 7, 8]]⟩ : AudioBuffer).sampleRate
                  (⟨1, 4, [[1, 2, 3, 4], [5, 6, 7, 8]]⟩ : AudioBuffer).length) ∧
      cutAudioRegion ⟨1, 4, [[1, 2, 3, 4], [5, 6, 7, 8]]⟩ 1 3 ChannelMode.stereo
        = concatenateAudioBuffers
            (extractAudioRegion ⟨1, 4, [[1, 2, 3, 4], [5, 6, 7, 8]]⟩ 0 1
              ChannelMode.stereo)
            (extractAudioRegion ⟨1, 4, [[1, 2, 3, 4], [5, 6, 7, 8]]⟩ 3
              (((⟨1, 4, [[1, 2, 3, 4], [5, 6, 7, 8]]⟩ : AudioBuffer).length : ℚ)
                / ((⟨1, 4, [[1, 2, 3, 4], [5, 6, 7, 8]]⟩ :
                    AudioBuffer).sampleRate : ℚ))
              ChannelMode.stereo)) :=
  ⟨by decide, by decide, by decide, by decide,
    cut_eq_concat_extract_interior ⟨1, 4, [[1, 2, 3, 4], [5, 6, 7, 8]]⟩
      (by decide) (by decide) (by decide) 1 3 (by norm_num) (by norm_num)
      (by norm_num) (by decide) (by decide)⟩

/-- C4 witness: cutting frames `[1, 2)` out of a 3-frame mono buffer in Stereo
mode removes the middle frame. -/
theorem cutRegion_stereo_ripple_delete_witness :
    Valid ⟨1, 3, [[1, 2, 3]]⟩ ∧
    (cutAudioRegion ⟨1, 3, [[1, 2, 3]]⟩ 1 2 ChannelMode.stereo).channels
      = [[1, 3]] := by
  refine ⟨by decide, ?_⟩
  have h := cutRegion_stereo_ripple_delete ⟨1, 3, [[1, 2, 3]]⟩ (by decide) 1 2
  rw [if_neg (by decide)] at h
  rw [h.2]
  decide

/-- C6 counterexample: with context sample rate 1 and a single 1-frame silent
track, the claimed length `min(L, last + floor(0.5 * rate))` is 0, but
`mixAllTracks` returns a 1-frame buffer. -/
theorem mixAll_trim_formula_counterexample :
    mixMaxLength [⟨⟨1, 1, [[0]]⟩, false⟩] = 1 ∧
    (mixAllTracks [⟨⟨1, 1, [[0]]⟩, false⟩] 1).length = 1 ∧
    min (mixMaxLength [⟨⟨1, 1, [[0]]⟩, false⟩])
      (mixLastFrame [⟨⟨1, 1, [[0]]⟩, false⟩] + 1 / 2) = 0 := by
  decide

/-- C6 witness: with no tracks the mix is the minimal 1-frame silent stereo
buffer and the length formula evaluates to 1. -/
theorem mixAll_trimmed_length_witness :
    (mixAllTracks [] 4).length
      = max 1 (min (mixMaxLength []) (mixLastFrame [] + 4 / 2)) ∧
    mixAllTracks [] 4 = ⟨4, 1, [[0], [0]]⟩ :=
  ⟨(mixAll_trimmed_length [] 4).1, (mixAll_trimmed_length [] 4).2 rfl⟩

/-- C5 witness: in the 0.8 + 0.8 mix, the sample 1 of channel 0 is within
`[-1, 1]`. -/
theorem mixAll_limiter_clamps_witness :
    [(1 : ℚ)] ∈ (mixAllTracks
        [⟨⟨2, 1, [[mkRat 4 5]]⟩, false⟩, ⟨⟨2, 1, [[mkRat 4 5]]⟩, false⟩]
        2).channels ∧
    (1 : ℚ) ∈ [(1 : ℚ)] ∧
    (-1 ≤ (1 : ℚ) ∧ (1 : ℚ) ≤ 1) :=
  ⟨by decide, by decide,
    mixAll_limiter_clamps.1
      [⟨⟨2, 1, [[mkRat 4 5]]⟩, false⟩, ⟨⟨2, 1, [[mkRat 4 5]]⟩, false⟩]
      2 [1] 1 (by decide) (by decide)⟩

/-- C7 witness: the claimed scenario — mono `[0.5, -0.5, 0]` at 8000 Hz, cut
over frame `[0, 1)` in Left mode zeroes only channel 0's first sample and
keeps the duplicated channel 1 intact. -/
theorem cutRegion_channel_silence_witness :
    Valid ⟨8000, 3, [[mkRat 1 2, mkRat (-1) 2, 0]]⟩ ∧
    ((cutAudioRegion ⟨8000, 3, [[mkRat 1 2, mkRat (-1) 2, 0]]⟩ 0 (mkRat 1 8000)
        ChannelMode.left).channels.getD 0 []).getD 0 0 = 0 ∧
    ((cutAudioRegion ⟨8000, 3, [[mkRat 1 2, mkRat (-1) 2, 0]]⟩ 0 (mkRat 1 8000)
        ChannelMode.left).channels.getD 1 []).getD 0 0 = mkRat 1 2 := by
  refine ⟨by decide, ?_, ?_⟩
  · have h := cutRegion_channel_silence ⟨8000, 3, [[mkRat 1 2, mkRat (-1) 2, 0]]⟩
      (by decide) ChannelMode.left (Or.inl rfl) 0 (mkRat 1 8000)
    have h0 := h.2.2.2 0 (by decide) 0 (by decide)
    rw [if_pos (by decide)] at h0
    exact h0
  · have h := cutRegion_channel_silence ⟨8000, 3, [[mkRat 1 2, mkRat (-1) 2, 0]]⟩
      (by decide) ChannelMode.left (Or.inl rfl) 0 (mkRat 1 8000)
    have h1 := h.2.2.2 1 (by decide) 0 (by decide)
    rw [if_neg (by decide)] at h1
    rw [h1]
    decide

/-- C8 witness: pasting a 3-frame clip at 1 s into a 2-frame stereo target in
Left mode grows the buffer to 4 frames and leaves channel 1 untouched. -/
theorem pasteToChannel_overwrite_witness :
    Valid ⟨1, 2, [[1, 2], [3, 4]]⟩ ∧ Valid ⟨1, 3, [[9, 8, 7]]⟩ ∧
    (pasteAudioToChannel ⟨1, 2, [[1, 2], [3, 4]]⟩ ⟨1, 3, [[9, 8, 7]]⟩ 1
        ChannelMode.left).length = 4 ∧
    ((pasteAudioToChannel ⟨1, 2, [[1, 2], [3, 4]]⟩ ⟨1, 3, [[9, 8, 7]]⟩ 1
        ChannelMode.left).getChannelData 1).getD 0 0 = 3 := by
  refine ⟨by decide, by decide, ?_, ?_⟩
  · have h := (pasteToChannel_overwrite ⟨1, 2, [[1, 2], [3, 4]]⟩
      ⟨1, 3, [[9, 8, 7]]⟩ (by decide) (by decide) ChannelMode.left
      (Or.inl rfl) 1).1
    rw [h]
    decide
  · have h := (pasteToChannel_overwrite ⟨1, 2, [[1, 2], [3, 4]]⟩
      ⟨1, 3, [[9, 8, 7]]⟩ (by decide) (by decide) ChannelMode.left
      (Or.inl rfl) 1).2.2.2.2
    have h1 := h 1 (by decide) (by decide) 0 (by decide)
    rw [h1]
    decide

/-- C10 witness: a reversed range on a 3-channel buffer in Stereo mode yields
the 1-channel, 1-frame silent buffer. -/
theorem extractRegion_empty_minimal_witness :
    clampFrame 1 1 2 ≤ clampFrame 5 1 2 ∧
    extractAudioRegion ⟨1, 2, [[1, 2], [3, 4], [5, 6]]⟩ 5 1 ChannelMode.stereo
      = createBuffer 1 1 1 :=
  ⟨by decide,
    (extractRegion_empty_minimal ⟨1, 2, [[1, 2], [3, 4], [5, 6]]⟩ 5 1
      ChannelMode.stereo (by decide)).1⟩

end ConcreteEvaluation
